import Mathlib

/-!
Verification development for the RetailAR training pipeline
(`src/training/run_training_pipeline.py` and `src/training/scripts/*.py`).

Each Python module is embedded as a Lean namespace.  Pure computations are
translated directly; filesystem and external-process effects are made explicit
(fallible image loading becomes `Except`, stage outcomes become explicit
boolean inputs of the orchestrator model).  The seeded numpy shuffle is
modelled by an explicit deterministic generator threaded as state.
-/

namespace AugmentImages

/-- The module-level `PRODUCTS` list of `augment_images.py`. -/
def PRODUCTS : List String :=
  [ "zyn-apple-mint"
  , "zyn-spearmint"
  , "terea-yellow"
  , "terea-sienna"
  , "iqos-iluma-prime" ]

end AugmentImages

namespace TrainModel

/-- The module-level `PRODUCTS` list of `train_model.py`
(the `classes=PRODUCTS` label order passed to both data generators). -/
def PRODUCTS : List String :=
  [ "zyn-apple-mint"
  , "zyn-spearmint"
  , "terea-yellow"
  , "terea-sienna"
  , "iqos-iluma-prime" ]

end TrainModel

namespace ValidateModel

/-- The module-level `PRODUCTS` list of `validate_model.py`: it indexes the
confusion-matrix axes (`PRODUCTS.index(...)`) and maps a prediction index to a
label (`PRODUCTS[predicted_class]`). -/
def PRODUCTS : List String :=
  [ "zyn-apple-mint"
  , "zyn-spearmint"
  , "terea-yellow"
  , "terea-sienna"
  , "iqos-iluma-prime" ]

/-- `predict_single_image`: `product_name = PRODUCTS[predicted_class]`. -/
def labelOfIndex (i : Nat) : Option String := PRODUCTS.get? i

/-- `PRODUCTS.index(name)` as used for the confusion-matrix axes in
`generate_validation_report`. -/
def productIndex (name : String) : Nat := PRODUCTS.indexOf name

end ValidateModel

namespace ValidateModel

/-- One per-sample record of `validate_directory`: the ground-truth class the
sample was drawn from and the class the model predicted
(`result['correct']` is derived as `predicted_product == true_product`). -/
structure VRes where
  trueProduct : String
  predictedProduct : String
deriving DecidableEq, Repr

/-- `result['correct'] = result['predicted_product'] == product`. -/
def correct (r : VRes) : Bool := r.predictedProduct == r.trueProduct

/-- `sum(1 for r in results if r['true_product'] == product and r['correct'])`. -/
def truePositives (results : List VRes) (product : String) : Nat :=
  results.countP (fun r => r.trueProduct == product && correct r)

/-- `sum(1 for r in results if r['true_product'] == product and not r['correct'])`. -/
def falseNegatives (results : List VRes) (product : String) : Nat :=
  results.countP (fun r => r.trueProduct == product && !correct r)

/-- `sum(1 for r in results if r['predicted_product'] == product and not r['correct'])`. -/
def falsePositives (results : List VRes) (product : String) : Nat :=
  results.countP (fun r => r.predictedProduct == product && !correct r)

/-- `precision = true_positives / total_predicted if total_predicted > 0 else 0`. -/
def precision (results : List VRes) (product : String) : ℚ :=
  let tp := truePositives results product
  let total_predicted := tp + falsePositives results product
  if 0 < total_predicted then (tp : ℚ) / (total_predicted : ℚ) else 0

/-- `recall = true_positives / total_true if total_true > 0 else 0`. -/
def recallScore (results : List VRes) (product : String) : ℚ :=
  let tp := truePositives results product
  let total_true := tp + falseNegatives results product
  if 0 < total_true then (tp : ℚ) / (total_true : ℚ) else 0

/-- `f1_score = 2*(P*R)/(P+R) if (P+R) > 0 else 0`. -/
def f1_score (results : List VRes) (product : String) : ℚ :=
  let p := precision results product
  let r := recallScore results product
  if 0 < p + r then 2 * (p * r) / (p + r) else 0

/-- One `confusion_matrix[true_idx][pred_idx] += 1` update of
`generate_validation_report`, on the matrix viewed as a function of its two
indices. -/
def bump (m : Nat → Nat → Nat) (t p : Nat) : Nat → Nat → Nat :=
  fun i j => if i = t ∧ j = p then m i j + 1 else m i j

/-- The confusion-matrix accumulation loop of `generate_validation_report`:
start from the zero matrix and increment `M[true_idx][pred_idx]` once per
result record. -/
def confusionMatrixFun (results : List VRes) : Nat → Nat → Nat :=
  results.foldl
    (fun m r => bump m (productIndex r.trueProduct) (productIndex r.predictedProduct))
    (fun _ _ => 0)

/-- The confusion matrix as emitted in the report
(`confusion_matrix.tolist()`): a `|PRODUCTS| × |PRODUCTS|` array of counts. -/
def confusionMatrixList (results : List VRes) : List (List Nat) :=
  (List.range PRODUCTS.length).map (fun i =>
    (List.range PRODUCTS.length).map (fun j => confusionMatrixFun results i j))

end ValidateModel

namespace ConvertTfjs

/-- The module-level `PRODUCTS` list of `convert_tfjs.py`
("must match training script"). -/
def PRODUCTS : List String :=
  [ "zyn-apple-mint"
  , "zyn-spearmint"
  , "terea-yellow"
  , "terea-sienna"
  , "iqos-iluma-prime" ]

/-- The fields of `training_config.json` that `create_model_metadata` reads
(`config.get(...)`; missing file means every field absent). -/
structure TrainingConfigFile where
  timestamp : Option String
  img_size : Option (List Nat)
  epochs : Option Nat
  batch_size : Option Nat
  training_samples : Option Nat
  validation_samples : Option Nat

/-- The `model_config` part of the metadata record written by
`create_model_metadata` to `model_metadata.json`. -/
structure ModelConfig where
  input_shape : List Nat
  num_classes : Nat
  products : List String
  rescale : ℚ
  resize : List Nat
deriving DecidableEq, Repr

/-- `create_model_metadata` of `convert_tfjs.py`, restricted to the
`model_config` section (the part consumed by the inference client). -/
def create_model_metadata (config : TrainingConfigFile) : ModelConfig :=
  { input_shape := config.img_size.getD [224, 224]
  , num_classes := PRODUCTS.length
  , products := PRODUCTS
  , rescale := 1 / 255
  , resize := config.img_size.getD [224, 224] }

end ConvertTfjs

namespace ConvertTfjs

/-- The keyword arguments passed to a TensorFlow.js converter invocation. -/
structure ConversionArgs where
  quantization_dtype : Option String
  strip_debug_ops : Bool
  weight_shard_size_bytes : Nat
deriving DecidableEq, Repr

/-- Which of the two conversion paths of `convert_model` was invoked. -/
inductive ConversionMethod
  | direct
  | savedModelFallback
deriving DecidableEq, Repr

/-- The converter invocation `convert_model` ends up making. -/
structure ConversionCall where
  method : ConversionMethod
  args : ConversionArgs
deriving DecidableEq, Repr

/-- The `conversion_kwargs` of `convert_model` (with `None` values filtered
out before the call, modelled by the `Option`):
`quantization_dtype = 'uint8' if quantization else None`,
`strip_debug_ops = True`, 4 MiB shards. -/
def conversion_kwargs (quantization : Bool) : ConversionArgs :=
  { quantization_dtype := if quantization then some "uint8" else none
  , strip_debug_ops := true
  , weight_shard_size_bytes := 4 * 1024 * 1024 }

/-- `convert_model`: try `save_keras_model` with `conversion_kwargs`; if that
raises (`directSucceeds = false`), fall back to
`convert_tf_saved_model(saved_model_path, tfjs_output,
strip_debug_ops=True, weight_shard_size_bytes=4*1024*1024)` — which passes no
quantization option at all. -/
def convert_model (quantization : Bool) (directSucceeds : Bool) : ConversionCall :=
  if directSucceeds then
    { method := .direct, args := conversion_kwargs quantization }
  else
    { method := .savedModelFallback
    , args := { quantization_dtype := none
              , strip_debug_ops := true
              , weight_shard_size_bytes := 4 * 1024 * 1024 } }

end ConvertTfjs

namespace RunTrainingPipeline

/-- A `training_*` output directory, as seen by the orchestrator's
`glob('training_*')`, with its filesystem modification time. -/
structure ModelDir where
  name : String
  mtime : Nat
deriving DecidableEq, Repr

/-- `max(model_dirs, key=lambda x: x.stat().st_mtime)` — on an empty list the
orchestrator branches to a failure instead, hence `Option`.  Python's `max`
keeps the earliest element among ties. -/
def latestModelDir : List ModelDir → Option ModelDir
  | [] => none
  | d :: rest => some (rest.foldl (fun acc x => if acc.mtime < x.mtime then x else acc) d)

/-- The skip flags of the orchestrator CLI (`--skip-augmentation`,
`--skip-training`, `--skip-conversion`; validation has no skip flag). -/
structure PipelineConfig where
  skipAugmentation : Bool
  skipTraining : Bool
  skipConversion : Bool
deriving DecidableEq, Repr

/-- The filesystem state the orchestrator observes.  `augmentedDataExists`
records whether previously augmented data is on disk; the orchestrator never
consults it (`--skip-augmentation` only prints and proceeds). -/
structure PipelineEnv where
  rawDataOk : Bool
  augmentedDataExists : Bool
  existingModelDirs : List ModelDir
deriving DecidableEq, Repr

/-- Outcomes of the external stage processes (`run_command` results), plus the
`training_*` directory a successful training run creates. -/
structure StageOutcomes where
  augmentationOk : Bool
  trainingOk : Bool
  newModelDir : ModelDir
  validationOk : Bool
  conversionOk : Bool
deriving DecidableEq, Repr

/-- The orchestrator's observable bookkeeping for one run of `main`:
which stages were executed, the resolved model directory, whether a
validation failure was logged, and whether `main` returned `True`. -/
structure PipelineRun where
  ranAugmentation : Bool
  ranTraining : Bool
  ranValidation : Bool
  ranConversion : Bool
  resolvedModelDir : Option ModelDir
  validationFailureLogged : Bool
  success : Bool
deriving DecidableEq, Repr

/-- A `return False` exit of `main` before validation was reached. -/
def failedRun (ranAug ranTrain : Bool) : PipelineRun :=
  { ranAugmentation := ranAug, ranTraining := ranTrain, ranValidation := false
  , ranConversion := false, resolvedModelDir := none
  , validationFailureLogged := false, success := false }

/-- Steps 4–5 of `main`, entered once a model directory is resolved:
validation always runs; a validation failure is only logged
("Validation failed, but continuing with conversion..."); conversion runs
unless skipped and its failure makes `main` return `False`. -/
def runFromModel (cfg : PipelineConfig) (out : StageOutcomes)
    (ranAug ranTrain : Bool) (latest : ModelDir) : PipelineRun :=
  let logged := !out.validationOk
  if cfg.skipConversion then
    { ranAugmentation := ranAug, ranTraining := ranTrain, ranValidation := true
    , ranConversion := false, resolvedModelDir := some latest
    , validationFailureLogged := logged, success := true }
  else if out.conversionOk then
    { ranAugmentation := ranAug, ranTraining := ranTrain, ranValidation := true
    , ranConversion := true, resolvedModelDir := some latest
    , validationFailureLogged := logged, success := true }
  else
    { ranAugmentation := ranAug, ranTraining := ranTrain, ranValidation := true
    , ranConversion := true, resolvedModelDir := some latest
    , validationFailureLogged := logged, success := false }

/-- `main` of `run_training_pipeline.py`: check raw data, run or skip
augmentation (fatal on failure), run or skip training (fatal on failure;
when skipped, resolve the most recent existing `training_*` directory and
fail if none exists), then validation and conversion via `runFromModel`. -/
def runPipeline (cfg : PipelineConfig) (env : PipelineEnv)
    (out : StageOutcomes) : PipelineRun :=
  if !env.rawDataOk then failedRun false false
  else if !cfg.skipAugmentation && !out.augmentationOk then failedRun true false
  else if !cfg.skipTraining then
    if !out.trainingOk then failedRun (!cfg.skipAugmentation) true
    else
      match latestModelDir (env.existingModelDirs ++ [out.newModelDir]) with
      | none => failedRun (!cfg.skipAugmentation) true
      | some latest => runFromModel cfg out (!cfg.skipAugmentation) true latest
  else
    match latestModelDir env.existingModelDirs with
    | none => failedRun (!cfg.skipAugmentation) false
    | some latest => runFromModel cfg out (!cfg.skipAugmentation) false latest

/-- The `__main__` guard: `sys.exit(1)` when `main` returned falsy, exit
status 0 otherwise. -/
def mainExitCode (cfg : PipelineConfig) (env : PipelineEnv)
    (out : StageOutcomes) : Nat :=
  if (runPipeline cfg env out).success then 0 else 1

end RunTrainingPipeline

namespace AugmentImages

/-- A raw source image on disk.  `readable = false` models a corrupt or
unreadable file, on which `Image.open` raises. -/
structure SourceImage where
  stem : String
  readable : Bool
deriving DecidableEq, Repr

/-- `PIL.Image.open` on a source file: raises (here: `Except.error`) on a
corrupt or unreadable image, otherwise yields the image. -/
def openImage (img : SourceImage) : Except String SourceImage :=
  if img.readable then .ok img
  else .error ("cannot identify image file " ++ img.stem)

/-- Zero-padding of the variant index as in the `_aug_{i:03d}` format. -/
def pad3 (i : Nat) : String :=
  (if i < 10 then "00" else if i < 100 then "0" else "") ++ toString i

/-- `augment_single_image`: open the image (raising on a corrupt file), then
emit `num_augmentations` augmented variants named
`{product}_{stem}_aug_{i:03d}.jpg`. -/
def augment_single_image (product_name : String) (img : SourceImage)
    (num_augmentations : Nat) : Except String (List String) := do
  let _ ← openImage img
  pure ((List.range num_augmentations).map (fun i =>
    product_name ++ "_" ++ img.stem ++ "_aug_" ++ pad3 i ++ ".jpg"))

/-- `process_product`, per-image loop: for each source image, open it and save
the normalized, resized `_original.jpg` copy, then append the augmented
variants produced by `augment_single_image`.  There is no exception handler in
this loop: a failure on any image propagates out of the whole call. -/
def process_product (product_name : String) (augmentations_per_image : Nat) :
    List SourceImage → Except String (List String)
  | [] => .ok []
  | img :: rest => do
      let _ ← openImage img
      let originalName := product_name ++ "_" ++ img.stem ++ "_original.jpg"
      let augmented ← augment_single_image product_name img augmentations_per_image
      let tail ← process_product product_name augmentations_per_image rest
      pure ((originalName :: augmented) ++ tail)

end AugmentImages

/-- State of the process-global `np.random` generator.  The generator itself is
external library code; it is modelled as an explicit deterministic
linear-congruential stream: all the pipeline relies on is that seeding with a
fixed value makes the subsequent shuffle a pure function of the seed and the
input list. -/
structure RngState where
  state : Nat
deriving DecidableEq, Repr

/-- `np.random.seed(s)`: resets the global generator state to a function of the
seed alone, discarding whatever state was there before. -/
def npSeed (s : Nat) : RngState := ⟨s⟩

/-- One step of the modelled generator: a 64-bit linear-congruential update. -/
def lcgNext (s : Nat) : Nat :=
  (s * 6364136223846793005 + 1442695040888963407) % (2 ^ 64)

/-- Draw a value below `n` from the generator (for `n > 0`), advancing it. -/
def randBelow (st : RngState) (n : Nat) : Nat × RngState :=
  let s := lcgNext st.state
  (s % n, ⟨s⟩)

/-- Remove the element at position `j` of `x :: xs` (for `j ≤ xs.length`),
returning it together with the remaining list. -/
def extractNth (x : α) (xs : List α) : Nat → α × List α
  | 0 => (x, xs)
  | j + 1 =>
    match xs with
    | [] => (x, [])
    | y :: ys =>
      let r := extractNth y ys j
      (r.1, x :: r.2)

/-- Fisher–Yates draw loop of the modelled `np.random.shuffle`: repeatedly
extract a generator-chosen element.  `fuel` is the length of the list. -/
def shuffleGo : Nat → RngState → List α → List α × RngState
  | 0, st, _ => ([], st)
  | _ + 1, st, [] => ([], st)
  | fuel + 1, st, x :: rest =>
    let n := rest.length + 1
    let (j, st1) := randBelow st n
    let (picked, remaining) := extractNth x rest j
    let (tail, st2) := shuffleGo fuel st1 remaining
    (picked :: tail, st2)

/-- `np.random.shuffle(xs)` under the modelled generator: a deterministic
permutation of `xs` driven by the current generator state. -/
def npShuffle (st : RngState) (xs : List α) : List α × RngState :=
  shuffleGo xs.length st xs

namespace AugmentImages

/-- The per-class body of `create_dataset_splits`, with the global generator
state made explicit: `np.random.seed(42)` (discarding the incoming state
`_prev`), `np.random.shuffle(images)`,
`train_count = int(len(images) * train_ratio)`, then the first `train_count`
shuffled samples go to `train` and the rest to `val`.  `int(...)` truncates
toward zero, which on the non-negative values arising here is the floor. -/
def create_dataset_splits_class_from (_prev : RngState) (train_ratio : ℚ)
    (images : List String) : (List String × List String) × RngState :=
  let st := npSeed 42
  let res := npShuffle st images
  let shuffled := res.1
  let train_count := (⌊(images.length : ℚ) * train_ratio⌋).toNat
  ((shuffled.take train_count, shuffled.drop train_count), res.2)

/-- The per-class split as observed by the manifest: train members and val
members for one product. -/
def create_dataset_splits_class (train_ratio : ℚ) (images : List String) :
    List String × List String :=
  (create_dataset_splits_class_from (npSeed 0) train_ratio images).1

end AugmentImages

/-- Reduction of `Except` bind on a success value. -/
theorem except_ok_bind {ε α β : Type} (a : α) (f : α → Except ε β) :
    (Except.ok a >>= f) = f a := rfl

/-- Reduction of `Except` bind on an error value. -/
theorem except_error_bind {ε α β : Type} (e : ε) (f : α → Except ε β) :
    ((Except.error e : Except ε α) >>= f) = Except.error e := rfl

/-- **C2.** For a class directory whose `n` source images are all readable and
a configured augmentation count `k`, `process_product` succeeds and emits
exactly `n * (k + 1)` output samples: one `_original` copy plus `k` augmented
variants per source image. -/
theorem process_product_count (product : String) (k : Nat)
    (images : List AugmentImages.SourceImage)
    (h : ∀ img ∈ images, img.readable = true) :
    ∃ out, AugmentImages.process_product product k images = .ok out
      ∧ out.length = images.length * (k + 1) := by
  induction images with
  | nil =>
      exact ⟨[], rfl, by simp⟩
  | cons img rest ih =>
      have himg : img.readable = true := h img (List.mem_cons_self _ _)
      have hrest : ∀ i ∈ rest, i.readable = true :=
        fun i hi => h i (List.mem_cons_of_mem _ hi)
      obtain ⟨tail, htail, hlen⟩ := ih hrest
      refine ⟨(product ++ "_" ++ img.stem ++ "_original.jpg")
          :: (List.range k).map (fun i =>
                product ++ "_" ++ img.stem ++ "_aug_" ++ AugmentImages.pad3 i ++ ".jpg")
          ++ tail, ?_, ?_⟩
      · simp [AugmentImages.process_product, AugmentImages.augment_single_image,
          AugmentImages.openImage, himg, htail, except_ok_bind]
      · simp [hlen, Nat.succ_mul]
        omega

/-- A concrete instantiation of `process_product_count`: three readable images
with `k = 2` augmentations yield `3 * (2 + 1) = 9` samples. -/
theorem process_product_count_witness :
    ∃ out, AugmentImages.process_product "zyn-apple-mint" 2
        [⟨"img1", true⟩, ⟨"img2", true⟩, ⟨"img3", true⟩] = .ok out
      ∧ out.length = 3 * (2 + 1) :=
  process_product_count "zyn-apple-mint" 2
    [⟨"img1", true⟩, ⟨"img2", true⟩, ⟨"img3", true⟩] (by decide)

/-- **C3, counterexample.** A corrupt source image is *not* skipped: with a
corrupt first image followed by a perfectly readable one, `process_product`
aborts with an error — it emits no samples at all for the readable remainder
of the class, rather than logging, skipping the one bad file and continuing. -/
theorem corrupt_image_aborts_class :
    AugmentImages.process_product "zyn-apple-mint" 2
        [⟨"corrupt", false⟩, ⟨"good", true⟩]
      = .error ("cannot identify image file " ++ "corrupt") := by
  rfl

/-- **C3, amended.** If any source image of the class is corrupt or unreadable,
augmentation of that class aborts with an error (the exception from
`Image.open` propagates out of `process_product`; there is no per-image
handler), instead of skipping that single image and continuing. -/
theorem corrupt_image_error_propagates (product : String) (k : Nat)
    (images : List AugmentImages.SourceImage) (img : AugmentImages.SourceImage)
    (hmem : img ∈ images) (hbad : img.readable = false) :
    ∃ e, AugmentImages.process_product product k images = .error e := by
  induction images with
  | nil => cases hmem
  | cons first rest ih =>
      rcases List.mem_cons.mp hmem with rfl | hrest
      · exact ⟨"cannot identify image file " ++ img.stem,
          by simp [AugmentImages.process_product, AugmentImages.openImage, hbad,
            except_error_bind]⟩
      · by_cases hfirst : first.readable = true
        · obtain ⟨e, he⟩ := ih hrest
          exact ⟨e, by simp [AugmentImages.process_product,
            AugmentImages.augment_single_image, AugmentImages.openImage, hfirst, he,
            except_ok_bind]⟩
        · exact ⟨"cannot identify image file " ++ first.stem,
            by simp [AugmentImages.process_product, AugmentImages.openImage,
              Bool.eq_false_iff.mpr hfirst, except_error_bind]⟩

/-- A concrete instantiation of `corrupt_image_error_propagates`: a class with
one readable and one corrupt image aborts with an error. -/
theorem corrupt_image_error_propagates_witness :
    ∃ e, AugmentImages.process_product "zyn-apple-mint" 2
        [⟨"good", true⟩, ⟨"corrupt", false⟩] = .error e :=
  corrupt_image_error_propagates "zyn-apple-mint" 2
    [⟨"good", true⟩, ⟨"corrupt", false⟩] ⟨"corrupt", false⟩ (by decide) rfl

/-- `extractNth` at an in-range position removes exactly one element. -/
theorem extractNth_snd_length :
    ∀ (x : α) (xs : List α) (j : Nat), j ≤ xs.length →
      ((extractNth x xs j).2).length = xs.length
  | _, _, 0, _ => by simp [extractNth]
  | _, [], j + 1, h => absurd h (by simp)
  | x, y :: ys, j + 1, h => by
      have := extractNth_snd_length y ys j (by simpa using h)
      simp [extractNth, this]

/-- The Fisher–Yates loop preserves the length of the list. -/
theorem shuffleGo_fst_length :
    ∀ (fuel : Nat) (st : RngState) (xs : List α), xs.length = fuel →
      ((shuffleGo fuel st xs).1).length = fuel
  | 0, _, _, _ => rfl
  | _ + 1, _, [], h => absurd h.symm (by simp)
  | fuel + 1, st, x :: rest, h => by
      have hrest : rest.length = fuel := by simpa using h
      have hj : (randBelow st (rest.length + 1)).1 ≤ rest.length :=
        Nat.lt_succ_iff.mp (Nat.mod_lt _ (Nat.succ_pos _))
      have hrem := extractNth_snd_length x rest (randBelow st (rest.length + 1)).1 hj
      have := shuffleGo_fst_length fuel (randBelow st (rest.length + 1)).2
        (extractNth x rest (randBelow st (rest.length + 1)).1).2 (hrem.trans hrest)
      simp [shuffleGo, this]

/-- The modelled `np.random.shuffle` preserves the length of the list. -/
theorem npShuffle_fst_length (st : RngState) (xs : List α) :
    ((npShuffle st xs).1).length = xs.length :=
  shuffleGo_fst_length xs.length st xs rfl

/-- **C4.** For a class with `n` augmented samples and a configured train ratio
`r` with `0 ≤ r ≤ 1` (default `0.8`), the partitioner assigns exactly
`⌊n·r⌋` samples to the train split and the remaining `n - ⌊n·r⌋` to the
validation split — the truncating rounding never moves a sample from
validation to train. -/
theorem create_dataset_splits_counts (r : ℚ) (images : List String)
    (h0 : 0 ≤ r) (h1 : r ≤ 1) :
    (AugmentImages.create_dataset_splits_class r images).1.length
        = (⌊(images.length : ℚ) * r⌋).toNat
    ∧ (AugmentImages.create_dataset_splits_class r images).2.length
        = images.length - (⌊(images.length : ℚ) * r⌋).toNat := by
  have hmul : (images.length : ℚ) * r ≤ (images.length : ℚ) :=
    mul_le_of_le_one_right (by positivity) h1
  have hfloor : ⌊(images.length : ℚ) * r⌋ ≤ (images.length : ℤ) := by
    have := Int.floor_le_floor hmul
    simpa using this
  have htc : (⌊(images.length : ℚ) * r⌋).toNat ≤ images.length := by
    exact Int.toNat_le.mpr (by exact_mod_cast hfloor)
  have hlen : ((npShuffle (npSeed 42) images).1).length = images.length :=
    npShuffle_fst_length _ _
  constructor
  · simp only [AugmentImages.create_dataset_splits_class,
      AugmentImages.create_dataset_splits_class_from]
    rw [List.length_take, hlen]
    omega
  · simp only [AugmentImages.create_dataset_splits_class,
      AugmentImages.create_dataset_splits_class_from]
    rw [List.length_drop, hlen]

/-- A concrete instantiation of `create_dataset_splits_counts`: 10 samples at
the default ratio `0.8` give 8 train and 2 validation samples. -/
theorem create_dataset_splits_counts_witness :
    ((0 : ℚ) ≤ 4 / 5 ∧ (4 / 5 : ℚ) ≤ 1)
    ∧ (AugmentImages.create_dataset_splits_class (4 / 5)
        ["a0", "a1", "a2", "a3", "a4", "a5", "a6", "a7", "a8", "a9"]).1.length = 8
    ∧ (AugmentImages.create_dataset_splits_class (4 / 5)
        ["a0", "a1", "a2", "a3", "a4", "a5", "a6", "a7", "a8", "a9"]).2.length = 2 := by
  have h := create_dataset_splits_counts (4 / 5)
    ["a0", "a1", "a2", "a3", "a4", "a5", "a6", "a7", "a8", "a9"]
    (by norm_num) (by norm_num)
  have hval : (⌊((["a0", "a1", "a2", "a3", "a4", "a5", "a6", "a7", "a8",
      "a9"] : List String).length : ℚ) * (4 / 5)⌋).toNat = 8 := by
    have hl : (["a0", "a1", "a2", "a3", "a4", "a5", "a6", "a7", "a8",
        "a9"] : List String).length = 10 := rfl
    rw [hl]
    have h8 : ⌊((10 : ℕ) : ℚ) * (4 / 5)⌋ = 8 := by norm_num
    rw [h8]
    decide
  refine ⟨⟨by norm_num, by norm_num⟩, ?_, ?_⟩
  · rw [h.1, hval]
  · rw [h.2, hval]
    decide

/-- **C5.** Re-running the dataset partitioner over the identical set of
augmented samples reproduces the identical train/validation membership: the
per-class split re-seeds the generator with the fixed seed 42, so the outcome
is independent of any prior generator state and depends only on the sample
list. -/
theorem create_dataset_splits_deterministic (s1 s2 : RngState) (r : ℚ)
    (images : List String) :
    AugmentImages.create_dataset_splits_class_from s1 r images
      = AugmentImages.create_dataset_splits_class_from s2 r images := rfl

/-- **C1.** The class-label order recorded in the converted artifact's metadata
(the `products` array written by `create_model_metadata`) is identical, element
for element, to the class order that indexes the confusion-matrix axes during
validation (`ValidateModel.productIndex`) and that maps a prediction index to a
label (`ValidateModel.labelOfIndex`). -/
theorem metadata_products_match_validation_order (config : ConvertTfjs.TrainingConfigFile) :
    (ConvertTfjs.create_model_metadata config).products = ValidateModel.PRODUCTS
    ∧ (∀ i : Nat,
        ValidateModel.labelOfIndex i
          = ((ConvertTfjs.create_model_metadata config).products).get? i)
    ∧ (∀ name : String,
        ValidateModel.productIndex name
          = ((ConvertTfjs.create_model_metadata config).products).indexOf name) := by
  refine ⟨rfl, fun i => rfl, fun name => rfl⟩

/-- **C6.** Per-class metric guards of `generate_validation_report`: precision
is exactly 0 when `TP + FP = 0`, recall is exactly 0 when `TP + FN = 0`, and
f1 is exactly 0 when `precision + recall = 0` — each zero-denominator case
takes the `else 0` branch instead of dividing. -/
theorem metrics_zero_denominator (results : List ValidateModel.VRes)
    (product : String) :
    (ValidateModel.truePositives results product
        + ValidateModel.falsePositives results product = 0 →
      ValidateModel.precision results product = 0)
    ∧ (ValidateModel.truePositives results product
        + ValidateModel.falseNegatives results product = 0 →
      ValidateModel.recallScore results product = 0)
    ∧ (ValidateModel.precision results product
        + ValidateModel.recallScore results product = 0 →
      ValidateModel.f1_score results product = 0) := by
  refine ⟨fun h => ?_, fun h => ?_, fun h => ?_⟩
  · simp [ValidateModel.precision, h]
  · simp [ValidateModel.recallScore, h]
  · simp only [ValidateModel.f1_score, h]
    simp

/-- Unfolding one `+= 1` step against the accumulation loop: the final value of
a cell is its value in the starting matrix plus the number of result records
that target that cell. -/
theorem bump_foldl_cell (l : List ValidateModel.VRes) :
    ∀ (m : Nat → Nat → Nat) (i j : Nat),
      (l.foldl (fun m r => ValidateModel.bump m
          (ValidateModel.productIndex r.trueProduct)
          (ValidateModel.productIndex r.predictedProduct)) m) i j
        = m i j + l.countP (fun r =>
            ValidateModel.productIndex r.trueProduct == i
              && ValidateModel.productIndex r.predictedProduct == j) := by
  induction l with
  | nil => intro m i j; simp
  | cons r l ih =>
      intro m i j
      rw [List.foldl_cons, ih, List.countP_cons]
      by_cases hc : ValidateModel.productIndex r.trueProduct = i
          ∧ ValidateModel.productIndex r.predictedProduct = j
      · simp [ValidateModel.bump, hc.1, hc.2]
        omega
      · have : ¬ (i = ValidateModel.productIndex r.trueProduct
            ∧ j = ValidateModel.productIndex r.predictedProduct) := by
          intro hx; exact hc ⟨hx.1.symm, hx.2.symm⟩
        have hpred : (ValidateModel.productIndex r.trueProduct == i
            && ValidateModel.productIndex r.predictedProduct == j) = false := by
          rcases Decidable.not_and_iff_or_not.mp hc with h1 | h1 <;>
            simp [h1]
        simp [ValidateModel.bump, this, hpred]

/-- Each confusion-matrix cell counts exactly the result records whose true
class indexes its row and whose predicted class indexes its column. -/
theorem confusionMatrixFun_cell (l : List ValidateModel.VRes) (i j : Nat) :
    ValidateModel.confusionMatrixFun l i j
      = l.countP (fun r => ValidateModel.productIndex r.trueProduct == i
          && ValidateModel.productIndex r.predictedProduct == j) := by
  rw [ValidateModel.confusionMatrixFun, bump_foldl_cell]
  omega

/-- Splitting a per-row count over the five column indices: if every predicted
index is below 5, the cells of row `i` partition the records with true index
`i`. -/
theorem row_count_split (l : List ValidateModel.VRes) (i : Nat)
    (h : ∀ r ∈ l, ValidateModel.productIndex r.predictedProduct < 5) :
    (l.countP (fun r => ValidateModel.productIndex r.trueProduct == i
        && ValidateModel.productIndex r.predictedProduct == 0))
      + (l.countP (fun r => ValidateModel.productIndex r.trueProduct == i
        && ValidateModel.productIndex r.predictedProduct == 1))
      + (l.countP (fun r => ValidateModel.productIndex r.trueProduct == i
        && ValidateModel.productIndex r.predictedProduct == 2))
      + (l.countP (fun r => ValidateModel.productIndex r.trueProduct == i
        && ValidateModel.productIndex r.predictedProduct == 3))
      + (l.countP (fun r => ValidateModel.productIndex r.trueProduct == i
        && ValidateModel.productIndex r.predictedProduct == 4))
      = l.countP (fun r => ValidateModel.productIndex r.trueProduct == i) := by
  induction l with
  | nil => simp
  | cons r l ih =>
      have hp : ValidateModel.productIndex r.predictedProduct < 5 :=
        h r (List.mem_cons_self _ _)
      have ih' := ih (fun x hx => h x (List.mem_cons_of_mem _ hx))
      simp only [List.countP_cons]
      by_cases hti : ValidateModel.productIndex r.trueProduct = i
      · interval_cases hpv : ValidateModel.productIndex r.predictedProduct <;>
          simp [hti] <;> omega
      · simp [hti]
        omega

/-- Splitting the total count over the five row indices: if every true index
is below 5, the per-row ground-truth counts partition all records. -/
theorem total_count_split (l : List ValidateModel.VRes)
    (h : ∀ r ∈ l, ValidateModel.productIndex r.trueProduct < 5) :
    (l.countP (fun r => ValidateModel.productIndex r.trueProduct == 0))
      + (l.countP (fun r => ValidateModel.productIndex r.trueProduct == 1))
      + (l.countP (fun r => ValidateModel.productIndex r.trueProduct == 2))
      + (l.countP (fun r => ValidateModel.productIndex r.trueProduct == 3))
      + (l.countP (fun r => ValidateModel.productIndex r.trueProduct == 4))
      = l.length := by
  induction l with
  | nil => simp
  | cons r l ih =>
      have ht : ValidateModel.productIndex r.trueProduct < 5 :=
        h r (List.mem_cons_self _ _)
      have ih' := ih (fun x hx => h x (List.mem_cons_of_mem _ hx))
      simp only [List.countP_cons, List.length_cons]
      interval_cases htv : ValidateModel.productIndex r.trueProduct <;>
        simp <;> omega

/-- Membership in the class list bounds the index produced by
`PRODUCTS.index(...)`. -/
theorem productIndex_lt_five {name : String}
    (h : name ∈ ValidateModel.PRODUCTS) : ValidateModel.productIndex name < 5 :=
  List.indexOf_lt_length.mpr h

/-- **C7.** For every validation run whose per-sample records carry classes
drawn from the class list, the confusion matrix is square of size
`|PRODUCTS| = 5`; cell `M[true][pred]` equals the number of evaluated samples
with that (true, predicted) index pair — one increment per sample; every row
sum equals that class's ground-truth sample count; and the grand sum equals
the total number of evaluated samples. -/
theorem confusion_matrix_invariants (results : List ValidateModel.VRes)
    (h : ∀ r ∈ results, r.trueProduct ∈ ValidateModel.PRODUCTS
        ∧ r.predictedProduct ∈ ValidateModel.PRODUCTS) :
    (ValidateModel.confusionMatrixList results).length = ValidateModel.PRODUCTS.length
    ∧ (∀ row ∈ ValidateModel.confusionMatrixList results,
        row.length = ValidateModel.PRODUCTS.length)
    ∧ (∀ i j : Nat, ValidateModel.confusionMatrixFun results i j
        = results.countP (fun r => ValidateModel.productIndex r.trueProduct == i
            && ValidateModel.productIndex r.predictedProduct == j))
    ∧ (∀ i : Nat, i < 5 →
        ((ValidateModel.confusionMatrixList results).getD i []).sum
          = results.countP (fun r => ValidateModel.productIndex r.trueProduct == i))
    ∧ ((ValidateModel.confusionMatrixList results).map List.sum).sum
        = results.length := by
  have hpred : ∀ r ∈ results, ValidateModel.productIndex r.predictedProduct < 5 :=
    fun r hr => productIndex_lt_five (h r hr).2
  have htrue : ∀ r ∈ results, ValidateModel.productIndex r.trueProduct < 5 :=
    fun r hr => productIndex_lt_five (h r hr).1
  have hrow : ∀ i : Nat,
      ((List.range 5).map (fun j => ValidateModel.confusionMatrixFun results i j)).sum
        = results.countP (fun r => ValidateModel.productIndex r.trueProduct == i) := by
    intro i
    have hr5 : (List.range 5) = [0, 1, 2, 3, 4] := rfl
    rw [hr5]
    simp only [List.map_cons, List.map_nil, List.sum_cons, List.sum_nil,
      confusionMatrixFun_cell]
    rw [← row_count_split results i hpred]
    omega
  refine ⟨rfl, ?_, ?_, ?_, ?_⟩
  · intro row hrow'
    rcases List.mem_map.mp hrow' with ⟨i, _, rfl⟩
    simp
  · exact fun i j => confusionMatrixFun_cell results i j
  · intro i hi
    have hr5 : (List.range ValidateModel.PRODUCTS.length) = [0, 1, 2, 3, 4] := rfl
    interval_cases i <;>
      simpa [ValidateModel.confusionMatrixList, hr5] using hrow _
  · have hr5 : (List.range ValidateModel.PRODUCTS.length) = [0, 1, 2, 3, 4] := rfl
    simp only [ValidateModel.confusionMatrixList, hr5, List.map_cons, List.map_nil,
      List.sum_cons, List.sum_nil]
    have h0 := hrow 0
    have h1 := hrow 1
    have h2 := hrow 2
    have h3 := hrow 3
    have h4 := hrow 4
    have hr5n : (List.range 5) = [0, 1, 2, 3, 4] := rfl
    rw [hr5n] at h0 h1 h2 h3 h4
    simp only [List.map_cons, List.map_nil, List.sum_cons, List.sum_nil] at h0 h1 h2 h3 h4
    have ht := total_count_split results htrue
    omega

/-- A concrete instantiation of `confusion_matrix_invariants` matching the
spec's example: one sample of true class `zyn-apple-mint` (index 0) predicted
as `zyn-spearmint` (index 1) increments `M[0][1]`, not `M[1][0]`, and the
grand sum is 1. -/
theorem confusion_matrix_invariants_witness :
    ValidateModel.confusionMatrixFun [⟨"zyn-apple-mint", "zyn-spearmint"⟩] 0 1
        = 1
    ∧ ValidateModel.confusionMatrixFun [⟨"zyn-apple-mint", "zyn-spearmint"⟩] 1 0
        = 0
    ∧ ((ValidateModel.confusionMatrixList
        [⟨"zyn-apple-mint", "zyn-spearmint"⟩]).map List.sum).sum = 1 := by
  have h := confusion_matrix_invariants [⟨"zyn-apple-mint", "zyn-spearmint"⟩]
    (by intro r hr; simp at hr; subst hr; constructor <;> decide)
  refine ⟨?_, ?_, ?_⟩
  · rw [h.2.2.1 0 1]; decide
  · rw [h.2.2.1 1 0]; decide
  · rw [h.2.2.2.2]; decide

/-- A concrete instantiation of `metrics_zero_denominator`: with no evaluated
samples every count is 0 and all three metrics evaluate to exactly 0. -/
theorem metrics_zero_denominator_witness :
    ValidateModel.precision [] "zyn-apple-mint" = 0
    ∧ ValidateModel.recallScore [] "zyn-apple-mint" = 0
    ∧ ValidateModel.f1_score [] "zyn-apple-mint" = 0 := by
  have h := metrics_zero_denominator [] "zyn-apple-mint"
  refine ⟨h.1 (by decide), h.2.1 (by decide), h.2.2 ?_⟩
  rw [h.1 (by decide), h.2.1 (by decide)]
  norm_num

/-- The running maximum of the mtime fold is one of the candidate directories. -/
theorem foldl_max_mem (rest : List RunTrainingPipeline.ModelDir)
    (d : RunTrainingPipeline.ModelDir) :
    rest.foldl (fun acc x => if acc.mtime < x.mtime then x else acc) d ∈ d :: rest := by
  induction rest generalizing d with
  | nil => simp
  | cons y ys ih =>
      rw [List.foldl_cons]
      rcases List.mem_cons.mp (ih (if d.mtime < y.mtime then y else d)) with heq | hmem
      · rw [heq]
        by_cases hc : d.mtime < y.mtime <;> simp [hc]
      · exact List.mem_cons_of_mem _ (List.mem_cons_of_mem _ hmem)

/-- Every candidate directory's mtime is bounded by the fold's result. -/
theorem foldl_max_ge (rest : List RunTrainingPipeline.ModelDir)
    (d : RunTrainingPipeline.ModelDir) :
    ∀ x ∈ d :: rest,
      x.mtime ≤ (rest.foldl (fun acc x => if acc.mtime < x.mtime then x else acc) d).mtime := by
  induction rest generalizing d with
  | nil =>
      intro x hx
      rcases List.mem_cons.mp hx with rfl | h
      · exact le_refl _
      · cases h
  | cons y ys ih =>
      intro x hx
      rw [List.foldl_cons]
      have hd : d.mtime ≤ (if d.mtime < y.mtime then y else d).mtime := by
        by_cases hc : d.mtime < y.mtime <;> simp [hc] <;> omega
      have hy : y.mtime ≤ (if d.mtime < y.mtime then y else d).mtime := by
        by_cases hc : d.mtime < y.mtime <;> simp [hc] <;> omega
      have hhead := ih (if d.mtime < y.mtime then y else d)
        (if d.mtime < y.mtime then y else d) (List.mem_cons_self _ _)
      rcases List.mem_cons.mp hx with rfl | hmem
      · exact le_trans hd hhead
      · rcases List.mem_cons.mp hmem with rfl | hmem2
        · exact le_trans hy hhead
        · exact ih (if d.mtime < y.mtime then y else d) x (List.mem_cons_of_mem _ hmem2)

/-- **C8.** Orchestrator failure policy: an augmentation failure aborts with
exit 1 before training/validation/conversion run; a training failure aborts
with exit 1 before validation/conversion run; a conversion failure makes the
run fail with exit 1; a validation failure is only logged — conversion still
runs (when not skipped) and the run's success is decided by conversion alone. -/
theorem pipeline_failure_policy (cfg : RunTrainingPipeline.PipelineConfig)
    (env : RunTrainingPipeline.PipelineEnv)
    (out : RunTrainingPipeline.StageOutcomes) :
    (env.rawDataOk = true → cfg.skipAugmentation = false →
        out.augmentationOk = false →
      (RunTrainingPipeline.runPipeline cfg env out).success = false
      ∧ (RunTrainingPipeline.runPipeline cfg env out).ranTraining = false
      ∧ (RunTrainingPipeline.runPipeline cfg env out).ranValidation = false
      ∧ (RunTrainingPipeline.runPipeline cfg env out).ranConversion = false
      ∧ RunTrainingPipeline.mainExitCode cfg env out = 1)
    ∧ (env.rawDataOk = true → (cfg.skipAugmentation || out.augmentationOk) = true →
        cfg.skipTraining = false → out.trainingOk = false →
      (RunTrainingPipeline.runPipeline cfg env out).success = false
      ∧ (RunTrainingPipeline.runPipeline cfg env out).ranValidation = false
      ∧ (RunTrainingPipeline.runPipeline cfg env out).ranConversion = false
      ∧ RunTrainingPipeline.mainExitCode cfg env out = 1)
    ∧ ((RunTrainingPipeline.runPipeline cfg env out).ranConversion = true →
        out.conversionOk = false →
      (RunTrainingPipeline.runPipeline cfg env out).success = false
      ∧ RunTrainingPipeline.mainExitCode cfg env out = 1)
    ∧ ((RunTrainingPipeline.runPipeline cfg env out).ranValidation = true →
        out.validationOk = false →
      (RunTrainingPipeline.runPipeline cfg env out).validationFailureLogged = true
      ∧ (cfg.skipConversion = false →
          (RunTrainingPipeline.runPipeline cfg env out).ranConversion = true)
      ∧ (RunTrainingPipeline.runPipeline cfg env out).success
          = (cfg.skipConversion || out.conversionOk)) := by
  obtain ⟨sa, st, sc⟩ := cfg
  obtain ⟨raw, agex, dirs⟩ := env
  obtain ⟨aok, tok, nd, vok, cok⟩ := out
  cases sa <;> cases st <;> cases sc <;> cases raw <;> cases aok <;> cases tok <;>
    cases vok <;> cases cok <;> cases dirs <;>
    simp [RunTrainingPipeline.runPipeline, RunTrainingPipeline.runFromModel,
      RunTrainingPipeline.failedRun, RunTrainingPipeline.latestModelDir,
      RunTrainingPipeline.mainExitCode]

/-- Concrete instantiations of `pipeline_failure_policy`: an augmentation
failure aborts; a training failure aborts; a conversion failure fails the run;
a validation failure still leads to a successful conversion and exit 0. -/
theorem pipeline_failure_policy_witness :
    ((RunTrainingPipeline.runPipeline ⟨false, false, false⟩ ⟨true, true, []⟩
        ⟨false, true, ⟨"training_1", 1⟩, true, true⟩).success = false
      ∧ (RunTrainingPipeline.runPipeline ⟨false, false, false⟩ ⟨true, true, []⟩
        ⟨false, true, ⟨"training_1", 1⟩, true, true⟩).ranTraining = false
      ∧ (RunTrainingPipeline.runPipeline ⟨false, false, false⟩ ⟨true, true, []⟩
        ⟨false, true, ⟨"training_1", 1⟩, true, true⟩).ranValidation = false
      ∧ (RunTrainingPipeline.runPipeline ⟨false, false, false⟩ ⟨true, true, []⟩
        ⟨false, true, ⟨"training_1", 1⟩, true, true⟩).ranConversion = false
      ∧ RunTrainingPipeline.mainExitCode ⟨false, false, false⟩ ⟨true, true, []⟩
        ⟨false, true, ⟨"training_1", 1⟩, true, true⟩ = 1)
    ∧ ((RunTrainingPipeline.runPipeline ⟨false, false, false⟩ ⟨true, true, []⟩
        ⟨true, false, ⟨"training_1", 1⟩, true, true⟩).success = false
      ∧ (RunTrainingPipeline.runPipeline ⟨false, false, false⟩ ⟨true, true, []⟩
        ⟨true, false, ⟨"training_1", 1⟩, true, true⟩).ranValidation = false
      ∧ (RunTrainingPipeline.runPipeline ⟨false, false, false⟩ ⟨true, true, []⟩
        ⟨true, false, ⟨"training_1", 1⟩, true, true⟩).ranConversion = false
      ∧ RunTrainingPipeline.mainExitCode ⟨false, false, false⟩ ⟨true, true, []⟩
        ⟨true, false, ⟨"training_1", 1⟩, true, true⟩ = 1)
    ∧ ((RunTrainingPipeline.runPipeline ⟨false, false, false⟩ ⟨true, true, []⟩
        ⟨true, true, ⟨"training_1", 1⟩, true, false⟩).success = false
      ∧ RunTrainingPipeline.mainExitCode ⟨false, false, false⟩ ⟨true, true, []⟩
        ⟨true, true, ⟨"training_1", 1⟩, true, false⟩ = 1)
    ∧ ((RunTrainingPipeline.runPipeline ⟨false, false, false⟩ ⟨true, true, []⟩
        ⟨true, true, ⟨"training_1", 1⟩, false, true⟩).validationFailureLogged = true
      ∧ (false = false → (RunTrainingPipeline.runPipeline ⟨false, false, false⟩
          ⟨true, true, []⟩
          ⟨true, true, ⟨"training_1", 1⟩, false, true⟩).ranConversion = true)
      ∧ (RunTrainingPipeline.runPipeline ⟨false, false, false⟩ ⟨true, true, []⟩
          ⟨true, true, ⟨"training_1", 1⟩, false, true⟩).success = (false || true)) :=
  ⟨(pipeline_failure_policy ⟨false, false, false⟩ ⟨true, true, []⟩
      ⟨false, true, ⟨"training_1", 1⟩, true, true⟩).1 rfl rfl rfl,
   (pipeline_failure_policy ⟨false, false, false⟩ ⟨true, true, []⟩
      ⟨true, false, ⟨"training_1", 1⟩, true, true⟩).2.1 rfl rfl rfl rfl,
   (pipeline_failure_policy ⟨false, false, false⟩ ⟨true, true, []⟩
      ⟨true, true, ⟨"training_1", 1⟩, true, false⟩).2.2.1 rfl rfl,
   (pipeline_failure_policy ⟨false, false, false⟩ ⟨true, true, []⟩
      ⟨true, true, ⟨"training_1", 1⟩, false, true⟩).2.2.2 rfl rfl⟩

/-- **C9, counterexample.** When augmentation is skipped, the orchestrator does
*not* resolve any previously produced augmentation artifact and does not fail
when none exists: with `--skip-augmentation` and no augmented data on disk
(`augmentedDataExists = false`), the run proceeds into training and succeeds. -/
theorem skip_augmentation_no_artifact_check :
    (RunTrainingPipeline.runPipeline ⟨true, false, false⟩ ⟨true, false, []⟩
        ⟨true, true, ⟨"training_1", 1⟩, true, true⟩).success = true
    ∧ (RunTrainingPipeline.runPipeline ⟨true, false, false⟩ ⟨true, false, []⟩
        ⟨true, true, ⟨"training_1", 1⟩, true, true⟩).ranTraining = true
    ∧ (⟨true, false, []⟩ : RunTrainingPipeline.PipelineEnv).augmentedDataExists
        = false := by
  refine ⟨rfl, rfl, rfl⟩

/-- **C9, amended.** Only the training stage performs artifact resolution when
skipped: with `--skip-training`, the orchestrator fails (exit 1, no validation
or conversion) when no `training_*` directory exists, and otherwise resolves
the candidate directory with the greatest modification time; skipping
augmentation triggers no artifact resolution or existence check — the run's
outcome is independent of whether augmented data exists. -/
theorem skip_training_artifact_resolution (sa sc agex : Bool)
    (dirs : List RunTrainingPipeline.ModelDir)
    (out : RunTrainingPipeline.StageOutcomes)
    (haug : (sa || out.augmentationOk) = true) :
    (dirs = [] →
      (RunTrainingPipeline.runPipeline ⟨sa, true, sc⟩ ⟨true, agex, dirs⟩ out).success
          = false
      ∧ (RunTrainingPipeline.runPipeline ⟨sa, true, sc⟩ ⟨true, agex, dirs⟩
          out).ranValidation = false
      ∧ (RunTrainingPipeline.runPipeline ⟨sa, true, sc⟩ ⟨true, agex, dirs⟩
          out).ranConversion = false
      ∧ RunTrainingPipeline.mainExitCode ⟨sa, true, sc⟩ ⟨true, agex, dirs⟩ out = 1)
    ∧ (∀ d rest, dirs = d :: rest →
        ∃ m, (RunTrainingPipeline.runPipeline ⟨sa, true, sc⟩ ⟨true, agex, dirs⟩
            out).resolvedModelDir = some m
          ∧ m ∈ dirs
          ∧ ∀ x ∈ dirs, x.mtime ≤ m.mtime)
    ∧ (∀ b, RunTrainingPipeline.runPipeline ⟨sa, true, sc⟩ ⟨true, b, dirs⟩ out
        = RunTrainingPipeline.runPipeline ⟨sa, true, sc⟩ ⟨true, agex, dirs⟩ out) := by
  obtain ⟨aok, tok, nd, vok, cok⟩ := out
  refine ⟨fun hnil => ?_, fun d rest hcons => ?_, fun b => rfl⟩
  · subst hnil
    cases sa <;> cases aok <;>
      simp_all [RunTrainingPipeline.runPipeline, RunTrainingPipeline.failedRun,
        RunTrainingPipeline.latestModelDir, RunTrainingPipeline.mainExitCode]
  · subst hcons
    refine ⟨rest.foldl (fun acc x => if acc.mtime < x.mtime then x else acc) d,
      ?_, foldl_max_mem rest d, foldl_max_ge rest d⟩
    cases sa <;> cases aok <;> cases sc <;> cases cok <;>
      simp_all [RunTrainingPipeline.runPipeline, RunTrainingPipeline.runFromModel,
        RunTrainingPipeline.latestModelDir]

/-- A concrete instantiation of `skip_training_artifact_resolution`: with two
existing `training_*` directories the resolved artifact is the one with the
greater mtime, and with none the pipeline fails. -/
theorem skip_training_artifact_resolution_witness :
    (∃ m, (RunTrainingPipeline.runPipeline ⟨false, true, false⟩
          ⟨true, true, [⟨"training_a", 3⟩, ⟨"training_b", 7⟩]⟩
          ⟨true, true, ⟨"training_n", 0⟩, true, true⟩).resolvedModelDir = some m
        ∧ m ∈ ([⟨"training_a", 3⟩, ⟨"training_b", 7⟩]
            : List RunTrainingPipeline.ModelDir)
        ∧ ∀ x ∈ ([⟨"training_a", 3⟩, ⟨"training_b", 7⟩]
            : List RunTrainingPipeline.ModelDir), x.mtime ≤ m.mtime)
    ∧ ((RunTrainingPipeline.runPipeline ⟨false, true, false⟩ ⟨true, true, []⟩
        ⟨true, true, ⟨"training_n", 0⟩, true, true⟩).success = false
      ∧ (RunTrainingPipeline.runPipeline ⟨false, true, false⟩ ⟨true, true, []⟩
        ⟨true, true, ⟨"training_n", 0⟩, true, true⟩).ranValidation = false
      ∧ (RunTrainingPipeline.runPipeline ⟨false, true, false⟩ ⟨true, true, []⟩
        ⟨true, true, ⟨"training_n", 0⟩, true, true⟩).ranConversion = false
      ∧ RunTrainingPipeline.mainExitCode ⟨false, true, false⟩ ⟨true, true, []⟩
        ⟨true, true, ⟨"training_n", 0⟩, true, true⟩ = 1) :=
  ⟨(skip_training_artifact_resolution false false true
      [⟨"training_a", 3⟩, ⟨"training_b", 7⟩]
      ⟨true, true, ⟨"training_n", 0⟩, true, true⟩ rfl).2.1
      ⟨"training_a", 3⟩ [⟨"training_b", 7⟩] rfl,
   (skip_training_artifact_resolution false false true []
      ⟨true, true, ⟨"training_n", 0⟩, true, true⟩ rfl).1 rfl⟩

/-- **C10.** If the direct Keras conversion raises and the SavedModel fallback
runs, the fallback is invoked without any quantization option — the resulting
artifact is unquantized even when quantization was enabled — whereas the
direct path passes `quantization_dtype='uint8'` exactly when quantization is
enabled. -/
theorem fallback_conversion_unquantized (quantization directSucceeds : Bool)
    (h : directSucceeds = false) :
    (ConvertTfjs.convert_model quantization directSucceeds).method
        = ConvertTfjs.ConversionMethod.savedModelFallback
    ∧ (ConvertTfjs.convert_model quantization directSucceeds).args.quantization_dtype
        = none
    ∧ (ConvertTfjs.convert_model quantization true).args.quantization_dtype
        = (if quantization then some "uint8" else none) := by
  subst h
  refine ⟨rfl, rfl, rfl⟩

/-- A concrete instantiation of `fallback_conversion_unquantized`: with
quantization enabled but a failing direct path, the fallback call carries no
quantization option. -/
theorem fallback_conversion_unquantized_witness :
    (ConvertTfjs.convert_model true false).method
        = ConvertTfjs.ConversionMethod.savedModelFallback
    ∧ (ConvertTfjs.convert_model true false).args.quantization_dtype = none
    ∧ (ConvertTfjs.convert_model true true).args.quantization_dtype
        = (if true then some "uint8" else none) :=
  fallback_conversion_unquantized true false rfl
